import Mathlib

/-!
Verification of the screen-monitor automation script (`src/main.py`).

The script captures the screen, matches a fixed set of button templates
against the screen's edge map at several scales, and clicks the best
match above a confidence threshold, subject to a per-target cooldown.

Embedding choices:
* The OpenCV operations (`cv2.resize`, `cv2.matchTemplate`, `cv2.minMaxLoc`)
  are opaque image computations; they are modelled by an oracle record
  (`MatchOracle`) giving, for each scale factor, the shape of the resized
  screen edge map, the best correlation score, and its location.  The
  control flow of `multi_scale_match`, `find_best_target`, `click_target`
  and `find_and_click` is translated statement by statement.
* Python floats are modelled as `ℚ`; `int(...)` truncation is `pyInt`;
  integer floor division `//` is `Int.fdiv`.
* The module-level dict `_last_click_ts` is threaded explicitly as an
  association list (`CooldownMap`); dict assignment is `setTs` and
  `dict.get(k, 0.0)` is `getTs`.
* A code path that would raise a Python exception (unpacking `None`
  coordinates) is modelled by returning `none`.
-/

namespace Monitor

/-- A match candidate: `(confidence, location, ratio)` as returned by
`multi_scale_match`. -/
abbrev Cand : Type := ℚ × (ℕ × ℕ) × ℚ

/-- The `best_coords` payload: `(maxLoc, r, (tH, tW))`. -/
abbrev Coords : Type := (ℕ × ℕ) × ℚ × (ℕ × ℕ)

/-- The `_last_click_ts` dict: target name to last-click timestamp. -/
abbrev CooldownMap : Type := List (String × ℚ)

/-- `MATCH_THRESHOLD = 0.70` from the source. -/
def MATCH_THRESHOLD : ℚ := 7/10

/-- `CLICK_COOLDOWN_SEC = 15` from the source. -/
def CLICK_COOLDOWN_SEC : ℚ := 15

/-- The keys of the `TARGETS` dict, in registration order. -/
def TARGET_NAMES : List String := ["I AM AVAILABLE", "OK"]

/-- `_last_click_ts = {k: 0.0 for k in TARGETS.keys()}`. -/
def _last_click_ts : CooldownMap := TARGET_NAMES.map (fun k => (k, 0))

/-- `d.get(k, 0.0)` on the cooldown dict. -/
def getTs (m : CooldownMap) (k : String) : ℚ := (m.lookup k).getD 0

/-- `d[k] = v` on the cooldown dict: replace the entry of the first
matching key, or append a new entry. -/
def setTs : CooldownMap → String → ℚ → CooldownMap
  | [], k, v => [(k, v)]
  | (k0, v0) :: rest, k, v =>
      if k0 = k then (k, v) :: rest else (k0, v0) :: setTs rest k v

/-- Python `int(...)` on a rational: truncation toward zero. -/
def pyInt (q : ℚ) : ℤ := if 0 ≤ q then ⌊q⌋ else ⌈q⌉

/-- `np.linspace(0.8, 1.2, 11)`: the 11 swept scale factors. -/
def scales : List ℚ := (List.range 11).map (fun i => 4/5 + (i : ℚ) * (1/25))

/-- Oracle for the opaque image computations of one
`multi_scale_match(screen_gray_edges, target_edges)` call:
`screenW` is `screen_gray_edges.shape[1]`; for each scale factor `s`,
`resized s` is the `(rows, cols)` shape of
`cv2.resize(screen_gray_edges, fx=s, fy=s)`, and `score s` / `loc s` are
the `maxVal` / `maxLoc` of `cv2.minMaxLoc(cv2.matchTemplate(resized,
target_edges, TM_CCOEFF_NORMED))` at that scale. -/
structure MatchOracle where
  screenW : ℕ
  resized : ℚ → ℕ × ℕ
  score : ℚ → ℚ
  loc : ℚ → ℕ × ℕ

/-- The candidate recorded at scale `s`:
`(maxVal, maxLoc, screen_gray_edges.shape[1] / resized.shape[1])`. -/
def candidate (o : MatchOracle) (s : ℚ) : Cand :=
  (o.score s, o.loc s, (o.screenW : ℚ) / (((o.resized s).2 : ℚ)))

/-- One iteration of the scale loop of `multi_scale_match`: skip the scale
if the resized map is smaller than the template `t = (tH, tW)` in either
dimension, otherwise keep the candidate when `found` is empty or the new
score is strictly larger. -/
def msmStep (o : MatchOracle) (t : ℕ × ℕ) (found : Option Cand) (s : ℚ) : Option Cand :=
  if (o.resized s).1 < t.1 ∨ (o.resized s).2 < t.2 then found
  else
    match found with
    | none => some (candidate o s)
    | some f => if f.1 < o.score s then some (candidate o s) else found

/-- `multi_scale_match(screen_gray_edges, target_edges)`: fold the scale
loop over the 11 swept scale factors, starting from `found = None`. -/
def multi_scale_match (o : MatchOracle) (t : ℕ × ℕ) : Option Cand :=
  scales.foldl (msmStep o t) none

/-- One template of the `templates` dict: the oracle for matching it
against the current screen, and its `"shape"` entry `(tH, tW)`. -/
structure TemplateEntry where
  oracle : MatchOracle
  shape : ℕ × ℕ

/-- One iteration of the template loop of `find_best_target`: keep the new
candidate exactly when `multi_scale_match` returned one and its score is
strictly above the best confidence so far. -/
def fbtStep (acc : Option String × ℚ × Option Coords) (nt : String × TemplateEntry) :
    Option String × ℚ × Option Coords :=
  match multi_scale_match nt.2.oracle nt.2.shape with
  | none => acc
  | some (maxVal, maxLoc, r) =>
      if acc.2.1 < maxVal then (some nt.1, maxVal, some (maxLoc, r, nt.2.shape))
      else acc

/-- `find_best_target(screen_bgr)`: fold the template loop over the
template list, starting from `(None, 0.0, None)`.  The screen image enters
only through each template's oracle. -/
def find_best_target (ts : List (String × TemplateEntry)) :
    Option String × ℚ × Option Coords :=
  ts.foldl fbtStep (none, 0, none)

/-- The click point computed by `click_target`:
`startX, startY = int(maxLoc[0]*r), int(maxLoc[1]*r)`,
`endX, endY = int((maxLoc[0]+tW)*r), int((maxLoc[1]+tH)*r)`,
centre via integer floor division by 2. -/
def clickPoint (maxLoc : ℕ × ℕ) (r : ℚ) (tH tW : ℕ) : ℤ × ℤ :=
  let startX := pyInt ((maxLoc.1 : ℚ) * r)
  let startY := pyInt ((maxLoc.2 : ℚ) * r)
  let endX := pyInt (((maxLoc.1 : ℚ) + (tW : ℚ)) * r)
  let endY := pyInt (((maxLoc.2 : ℚ) + (tH : ℚ)) * r)
  (startX + Int.fdiv (endX - startX) 2, startY + Int.fdiv (endY - startY) 2)

/-- `click_target(best_target, best_conf, best_coords)` with the cooldown
dict `st` passed in and out explicitly and `now = time.time()` a
parameter.  Returns `some (clicked, clicked_point, new_state)`; returns
`none` for the path that would raise (unpacking absent `best_coords`).
`not best_target` is true for both `None` and the empty string. -/
def click_target (best_target : Option String) (best_conf : ℚ)
    (best_coords : Option Coords) (st : CooldownMap) (now : ℚ) :
    Option (Bool × Option (ℤ × ℤ) × CooldownMap) :=
  match best_target with
  | none => some (false, none, st)
  | some name =>
      if name = "" ∨ best_conf < MATCH_THRESHOLD then some (false, none, st)
      else if now - getTs st name < CLICK_COOLDOWN_SEC then some (false, none, st)
      else
        match best_coords with
        | none => none
        | some (maxLoc, r, sh) =>
            some (true, some (clickPoint maxLoc r sh.1 sh.2), setTs st name now)

/-- `find_and_click(screenshot_path)`: `screen = cv2.imread(path)` is
modelled by an optional screen; a decodable screen determines the
template list (each template paired with its match oracle against this
screen).  `None` aborts the cycle with `False`. -/
def find_and_click (screen : Option (List (String × TemplateEntry)))
    (st : CooldownMap) (now : ℚ) : Option (Bool × Option (ℤ × ℤ) × CooldownMap) :=
  match screen with
  | none => some (false, none, st)
  | some ts =>
      let b := find_best_target ts
      click_target b.1 b.2.1 b.2.2 st now

/-- One call event of a `click_target` trace. -/
structure CallEvent where
  target : Option String
  conf : ℚ
  coords : Option Coords
  now : ℚ

/-- Run one `click_target` call on the cooldown state: a raising call
(`none`) leaves the state unchanged, as the exception fires before any
mutation. -/
def step (st : CooldownMap) (e : CallEvent) :
    Option (Bool × Option (ℤ × ℤ)) × CooldownMap :=
  match click_target e.target e.conf e.coords st e.now with
  | none => (none, st)
  | some (b, p, st1) => (some (b, p), st1)

/-- Run a sequence of `click_target` calls, threading the cooldown state. -/
def runState (st : CooldownMap) (es : List CallEvent) : CooldownMap :=
  es.foldl (fun s e => (step s e).2) st

/-- The call `e`, made from cooldown state `st`, dispatches a click for
target `name`. -/
def ClicksFor (name : String) (st : CooldownMap) (e : CallEvent) : Prop :=
  e.target = some name ∧
    ∃ p st1, click_target e.target e.conf e.coords st e.now = some (true, p, st1)

/-! ### Helper lemmas on the cooldown map -/

theorem getTs_cons (k0 : String) (v0 : ℚ) (tl : CooldownMap) (k : String) :
    getTs ((k0, v0) :: tl) k = if k = k0 then v0 else getTs tl k := by
  by_cases h : k = k0
  · subst h
    simp [getTs, List.lookup]
  · simp [getTs, List.lookup, beq_eq_false_iff_ne.mpr h, h]

theorem getTs_setTs_self (m : CooldownMap) (k : String) (v : ℚ) :
    getTs (setTs m k v) k = v := by
  induction m with
  | nil => simp [setTs, getTs_cons]
  | cons hd tl ih =>
      obtain ⟨k0, v0⟩ := hd
      by_cases h : k0 = k
      · subst h
        simp [setTs, getTs_cons]
      · simp [setTs, if_neg h, getTs_cons, Ne.symm h, ih]

theorem getTs_setTs_ne (m : CooldownMap) (k k' : String) (v : ℚ) (h : k' ≠ k) :
    getTs (setTs m k v) k' = getTs m k' := by
  induction m with
  | nil => simp [setTs, getTs_cons, h]
  | cons hd tl ih =>
      obtain ⟨k0, v0⟩ := hd
      by_cases h0 : k0 = k
      · subst h0
        simp [setTs, getTs_cons, h]
      · simp [setTs, if_neg h0, getTs_cons, ih]

/-! ### Helper lemmas on `click_target` -/

/-- On any `False` return, the state and the click point are untouched. -/
theorem click_target_false_state (bt : Option String) (conf : ℚ)
    (coords : Option Coords) (st : CooldownMap) (now : ℚ)
    (p : Option (ℤ × ℤ)) (st1 : CooldownMap)
    (h : click_target bt conf coords st now = some (false, p, st1)) :
    st1 = st ∧ p = none := by
  cases bt with
  | none =>
      simp only [click_target, Option.some.injEq, Prod.mk.injEq, true_and] at h
      exact ⟨h.2.symm, h.1.symm⟩
  | some name =>
      by_cases h1 : name = "" ∨ conf < MATCH_THRESHOLD
      · simp only [click_target, if_pos h1, Option.some.injEq, Prod.mk.injEq, true_and] at h
        exact ⟨h.2.symm, h.1.symm⟩
      · by_cases h2 : now - getTs st name < CLICK_COOLDOWN_SEC
        · simp only [click_target, if_neg h1, if_pos h2, Option.some.injEq,
            Prod.mk.injEq, true_and] at h
          exact ⟨h.2.symm, h.1.symm⟩
        · cases coords with
          | none => simp [click_target, if_neg h1, if_neg h2] at h
          | some c =>
              obtain ⟨maxLoc, r, sh⟩ := c
              simp [click_target, if_neg h1, if_neg h2] at h

/-- On any `True` return: the conditions of all three guards, the clicked
point, and the updated state. -/
theorem click_target_true_spec (bt : Option String) (conf : ℚ)
    (coords : Option Coords) (st : CooldownMap) (now : ℚ)
    (p : Option (ℤ × ℤ)) (st1 : CooldownMap)
    (h : click_target bt conf coords st now = some (true, p, st1)) :
    ∃ name maxLoc r sh, bt = some name ∧ name ≠ "" ∧ MATCH_THRESHOLD ≤ conf ∧
      CLICK_COOLDOWN_SEC ≤ now - getTs st name ∧ coords = some (maxLoc, r, sh) ∧
      p = some (clickPoint maxLoc r sh.1 sh.2) ∧ st1 = setTs st name now := by
  cases bt with
  | none => simp [click_target] at h
  | some name =>
      by_cases h1 : name = "" ∨ conf < MATCH_THRESHOLD
      · simp [click_target, if_pos h1] at h
      · by_cases h2 : now - getTs st name < CLICK_COOLDOWN_SEC
        · simp [click_target, if_neg h1, if_pos h2] at h
        · cases coords with
          | none => simp [click_target, if_neg h1, if_neg h2] at h
          | some c =>
              obtain ⟨maxLoc, r, sh⟩ := c
              push_neg at h1 h2
              simp only [click_target, if_neg (not_or.mpr ⟨h1.1, not_lt.mpr h1.2⟩),
                if_neg (not_lt.mpr h2), Option.some.injEq, Prod.mk.injEq, true_and] at h
              exact ⟨name, maxLoc, r, sh, rfl, h1.1, h1.2, h2, rfl, h.1.symm, h.2.symm⟩

/-! ### Helper lemmas on `step` traces -/

/-- A call dispatching a click for `name` sets its cooldown stamp to the
call's `now`. -/
theorem step_snd_click (name : String) (st : CooldownMap) (e : CallEvent)
    (h : ClicksFor name st e) : getTs (step st e).2 name = e.now := by
  obtain ⟨htgt, p, st1, hct⟩ := h
  obtain ⟨nm, maxLoc, r, sh, hbt, -, -, -, -, -, hst1⟩ :=
    click_target_true_spec _ _ _ _ _ _ _ hct
  have hnm : nm = name := by
    rw [htgt] at hbt
    exact (Option.some.injEq _ _ ▸ hbt).symm
  subst hnm
  simp [step, hct, hst1, getTs_setTs_self]

/-- A call that does not dispatch a click for `name` leaves the cooldown
stamp of `name` unchanged. -/
theorem step_snd_no_click (name : String) (st : CooldownMap) (e : CallEvent)
    (h : ¬ ClicksFor name st e) : getTs (step st e).2 name = getTs st name := by
  cases hct : click_target e.target e.conf e.coords st e.now with
  | none => simp [step, hct]
  | some res =>
      obtain ⟨b, p, st1⟩ := res
      cases b with
      | false =>
          have hfr := click_target_false_state _ _ _ _ _ _ _ hct
          simp [step, hct, hfr.1]
      | true =>
          obtain ⟨nm, maxLoc, r, sh, hbt, -, -, -, -, -, hst1⟩ :=
            click_target_true_spec _ _ _ _ _ _ _ hct
          have hnm : nm ≠ name := by
            intro hh
            exact h ⟨by rw [hbt, hh], p, st1, hct⟩
          simp [step, hct, hst1, getTs_setTs_ne st nm name e.now (fun hh => hnm hh.symm)]

/-- If no call of `es` dispatches a click for `name`, the cooldown stamp
of `name` survives the whole run. -/
theorem runState_no_click_preserves (name : String) (es : List CallEvent) :
    ∀ st : CooldownMap,
      (∀ pre e suf, es = pre ++ e :: suf → ¬ ClicksFor name (runState st pre) e) →
      getTs (runState st es) name = getTs st name := by
  induction es with
  | nil => intro st _; rfl
  | cons e es ih =>
      intro st h
      have h0 : ¬ ClicksFor name st e := by
        have := h [] e es rfl
        simpa [runState] using this
      have hrw : runState st (e :: es) = runState (step st e).2 es := by
        simp [runState]
      rw [hrw,
        ih (step st e).2 (fun pre e2 suf hsplit => by
          have := h (e :: pre) e2 suf (by rw [hsplit]; rfl)
          simpa [runState] using this),
        step_snd_no_click name st e h0]

/-! ### Helper lemmas on the scale loop of `multi_scale_match` -/

/-- The scale-fits condition: the resized screen map is at least as large
as the template in both dimensions. -/
def ScaleFits (o : MatchOracle) (t : ℕ × ℕ) (s : ℚ) : Prop :=
  ¬ ((o.resized s).1 < t.1 ∨ (o.resized s).2 < t.2)

theorem msmStep_skip (o : MatchOracle) (t : ℕ × ℕ) (acc : Option Cand) (s : ℚ)
    (h : ¬ ScaleFits o t s) : msmStep o t acc s = acc := by
  unfold msmStep
  rw [if_pos (not_not.mp h)]

theorem msmStep_none (o : MatchOracle) (t : ℕ × ℕ) (s : ℚ)
    (h : ScaleFits o t s) : msmStep o t none s = some (candidate o s) := by
  unfold msmStep
  rw [if_neg h]

theorem msmStep_keep (o : MatchOracle) (t : ℕ × ℕ) (f : Cand) (s : ℚ)
    (h : ScaleFits o t s) (h2 : ¬ f.1 < o.score s) :
    msmStep o t (some f) s = some f := by
  unfold msmStep
  rw [if_neg h]
  show (if f.1 < o.score s then some (candidate o s) else some f) = some f
  rw [if_neg h2]

theorem msmStep_improve (o : MatchOracle) (t : ℕ × ℕ) (f : Cand) (s : ℚ)
    (h : ScaleFits o t s) (h2 : f.1 < o.score s) :
    msmStep o t (some f) s = some (candidate o s) := by
  unfold msmStep
  rw [if_neg h]
  show (if f.1 < o.score s then some (candidate o s) else some f) = some (candidate o s)
  rw [if_pos h2]

/-- Once `found` is non-`None`, it stays non-`None`. -/
theorem msm_foldl_some (o : MatchOracle) (t : ℕ × ℕ) (L : List ℚ) :
    ∀ f : Cand, ∃ g, L.foldl (msmStep o t) (some f) = some g := by
  induction L with
  | nil => exact fun f => ⟨f, rfl⟩
  | cons s L ih =>
      intro f
      by_cases hv : ScaleFits o t s
      · by_cases h2 : f.1 < o.score s
        · simpa [List.foldl_cons, msmStep_improve o t f s hv h2] using ih (candidate o s)
        · simpa [List.foldl_cons, msmStep_keep o t f s hv h2] using ih f
      · simpa [List.foldl_cons, msmStep_skip o t (some f) s hv] using ih f

/-- The fold is `None` exactly when every scale in the list fails the
size check. -/
theorem msm_foldl_none_iff (o : MatchOracle) (t : ℕ × ℕ) (L : List ℚ) :
    L.foldl (msmStep o t) none = none ↔ ∀ s ∈ L, ¬ ScaleFits o t s := by
  induction L with
  | nil => simp
  | cons s L ih =>
      by_cases hv : ScaleFits o t s
      · obtain ⟨g, hg⟩ := msm_foldl_some o t L (candidate o s)
        simp [List.foldl_cons, msmStep_none o t s hv, hg, hv]
      · simp [List.foldl_cons, msmStep_skip o t none s hv, ih, hv]

/-- The final score bounds the score of every fitting scale of the list,
and the score of any starting accumulator. -/
theorem msm_foldl_ub (o : MatchOracle) (t : ℕ × ℕ) (L : List ℚ) :
    ∀ (acc : Option Cand) (res : Cand), L.foldl (msmStep o t) acc = some res →
      (∀ s ∈ L, ScaleFits o t s → o.score s ≤ res.1) ∧
      (∀ f : Cand, acc = some f → f.1 ≤ res.1) := by
  induction L with
  | nil =>
      intro acc res h
      simp only [List.foldl_nil] at h
      refine ⟨by simp, fun f hf => ?_⟩
      rw [hf] at h
      cases h
      exact le_refl _
  | cons s L ih =>
      intro acc res h
      simp only [List.foldl_cons] at h
      obtain ⟨hL, hacc⟩ := ih (msmStep o t acc s) res h
      by_cases hv : ScaleFits o t s
      · cases acc with
        | none =>
            have hscore : o.score s ≤ res.1 := hacc _ (msmStep_none o t s hv)
            refine ⟨fun s2 hs2 hfit => ?_, fun f hf => by cases hf⟩
            rcases List.mem_cons.mp hs2 with rfl | hs2
            · exact hscore
            · exact hL s2 hs2 hfit
        | some f0 =>
            by_cases h2 : f0.1 < o.score s
            · have hscore : o.score s ≤ res.1 := hacc _ (msmStep_improve o t f0 s hv h2)
              refine ⟨fun s2 hs2 hfit => ?_, fun f hf => ?_⟩
              · rcases List.mem_cons.mp hs2 with rfl | hs2
                · exact hscore
                · exact hL s2 hs2 hfit
              · cases hf
                exact le_of_lt (lt_of_lt_of_le h2 hscore)
            · have hf0 : f0.1 ≤ res.1 := hacc _ (msmStep_keep o t f0 s hv h2)
              refine ⟨fun s2 hs2 hfit => ?_, fun f hf => ?_⟩
              · rcases List.mem_cons.mp hs2 with rfl | hs2
                · exact le_trans (not_lt.mp h2) hf0
                · exact hL s2 hs2 hfit
              · cases hf
                exact hf0
      · have hstep := msmStep_skip o t acc s hv
        refine ⟨fun s2 hs2 hfit => ?_, fun f hf => hacc f (by rw [hstep, hf])⟩
        rcases List.mem_cons.mp hs2 with rfl | hs2
        · exact absurd hfit hv
        · exact hL s2 hs2 hfit

/-- The final candidate is either the starting accumulator or the
candidate of some fitting scale of the list. -/
theorem msm_foldl_attain (o : MatchOracle) (t : ℕ × ℕ) (L : List ℚ) :
    ∀ (acc : Option Cand) (res : Cand), L.foldl (msmStep o t) acc = some res →
      acc = some res ∨ ∃ s ∈ L, ScaleFits o t s ∧ res = candidate o s := by
  induction L with
  | nil =>
      intro acc res h
      simp only [List.foldl_nil] at h
      exact Or.inl h
  | cons s L ih =>
      intro acc res h
      simp only [List.foldl_cons] at h
      rcases ih _ res h with hacc | ⟨s2, hs2, hfit, hres⟩
      · by_cases hv : ScaleFits o t s
        · cases acc with
          | none =>
              rw [msmStep_none o t s hv] at hacc
              cases hacc
              exact Or.inr ⟨s, List.mem_cons_self _ _, hv, rfl⟩
          | some f0 =>
              by_cases h2 : f0.1 < o.score s
              · rw [msmStep_improve o t f0 s hv h2] at hacc
                cases hacc
                exact Or.inr ⟨s, List.mem_cons_self _ _, hv, rfl⟩
              · rw [msmStep_keep o t f0 s hv h2] at hacc
                exact Or.inl hacc
        · rw [msmStep_skip o t acc s hv] at hacc
          exact Or.inl hacc
      · exact Or.inr ⟨s2, List.mem_cons_of_mem _ hs2, hfit, hres⟩

/-! ### Helper lemma on the template loop of `find_best_target` -/

/-- The template loop leaves the accumulator untouched when no template's
match strictly beats the accumulated confidence. -/
theorem fbt_foldl_const (ts : List (String × TemplateEntry)) :
    ∀ acc : Option String × ℚ × Option Coords,
      (∀ nt ∈ ts, ∀ res : Cand,
        multi_scale_match nt.2.oracle nt.2.shape = some res → res.1 ≤ acc.2.1) →
      ts.foldl fbtStep acc = acc := by
  induction ts with
  | nil => intro acc _; rfl
  | cons nt ts ih =>
      intro acc h
      have hstep : fbtStep acc nt = acc := by
        unfold fbtStep
        cases hm : multi_scale_match nt.2.oracle nt.2.shape with
        | none => rfl
        | some res =>
            obtain ⟨v, l, r⟩ := res
            have hle : v ≤ acc.2.1 := h nt (List.mem_cons_self _ _) (v, l, r) hm
            simp [not_lt.mpr hle]
      simp only [List.foldl_cons, hstep]
      exact ih acc (fun nt2 h2 => h nt2 (List.mem_cons_of_mem _ h2))

/-! ### Further helpers: initial state, success path, spec-side click point -/

/-- Every initial cooldown stamp is `0.0` (and so is the dict default). -/
theorem getTs_init (k : String) : getTs _last_click_ts k = 0 := by
  show getTs [("I AM AVAILABLE", 0), ("OK", 0)] k = 0
  rw [getTs_cons, getTs_cons]
  split_ifs <;> rfl

/-- Unfolding of `click_target` on a present target name. -/
theorem click_target_some (name : String) (conf : ℚ) (coords : Option Coords)
    (st : CooldownMap) (now : ℚ) :
    click_target (some name) conf coords st now =
      if name = "" ∨ conf < MATCH_THRESHOLD then some (false, none, st)
      else if now - getTs st name < CLICK_COOLDOWN_SEC then some (false, none, st)
      else
        match coords with
        | none => none
        | some (maxLoc, r, sh) =>
            some (true, some (clickPoint maxLoc r sh.1 sh.2), setTs st name now) := rfl

/-- The success path of `click_target`, fully evaluated. -/
theorem click_target_success (name : String) (conf : ℚ) (maxLoc : ℕ × ℕ) (r : ℚ)
    (sh : ℕ × ℕ) (st : CooldownMap) (now : ℚ) (hne : name ≠ "")
    (hconf : MATCH_THRESHOLD ≤ conf)
    (hcool : CLICK_COOLDOWN_SEC ≤ now - getTs st name) :
    click_target (some name) conf (some (maxLoc, r, sh)) st now
      = some (true, some (clickPoint maxLoc r sh.1 sh.2), setTs st name now) := by
  rw [click_target_some, if_neg (not_or.mpr ⟨hne, not_lt.mpr hconf⟩),
    if_neg (not_lt.mpr hcool)]

/-- `pyInt` agrees with the floor on nonnegative arguments. -/
theorem pyInt_nonneg (q : ℚ) (h : 0 ≤ q) : pyInt q = ⌊q⌋ := if_pos h

/-- The click point as the specification words it: scale the matched
top-left corner and the template dimensions by the ratio, round each
scaled coordinate down to an integer pixel, and take the midpoint of the
resulting rectangle by integer floor division. -/
def spec_click_point (maxLoc : ℕ × ℕ) (r : ℚ) (tH tW : ℕ) : ℤ × ℤ :=
  let startX := ⌊(maxLoc.1 : ℚ) * r⌋
  let startY := ⌊(maxLoc.2 : ℚ) * r⌋
  let endX := ⌊((maxLoc.1 : ℚ) + (tW : ℚ)) * r⌋
  let endY := ⌊((maxLoc.2 : ℚ) + (tH : ℚ)) * r⌋
  (startX + Int.fdiv (endX - startX) 2, startY + Int.fdiv (endY - startY) 2)

/-- For a nonnegative ratio the code's truncating conversions coincide
with the floors of the specification formula. -/
theorem clickPoint_eq_spec (maxLoc : ℕ × ℕ) (r : ℚ) (tH tW : ℕ) (hr : 0 ≤ r) :
    clickPoint maxLoc r tH tW = spec_click_point maxLoc r tH tW := by
  have h1 : (0 : ℚ) ≤ (maxLoc.1 : ℚ) * r := mul_nonneg (Nat.cast_nonneg _) hr
  have h2 : (0 : ℚ) ≤ (maxLoc.2 : ℚ) * r := mul_nonneg (Nat.cast_nonneg _) hr
  have h3 : (0 : ℚ) ≤ ((maxLoc.1 : ℚ) + (tW : ℚ)) * r :=
    mul_nonneg (add_nonneg (Nat.cast_nonneg _) (Nat.cast_nonneg _)) hr
  have h4 : (0 : ℚ) ≤ ((maxLoc.2 : ℚ) + (tH : ℚ)) * r :=
    mul_nonneg (add_nonneg (Nat.cast_nonneg _) (Nat.cast_nonneg _)) hr
  simp only [clickPoint, spec_click_point, pyInt_nonneg _ h1, pyInt_nonneg _ h2,
    pyInt_nonneg _ h3, pyInt_nonneg _ h4]

/-- Sample oracle for witnesses: a 100-pixel-wide screen whose resized
edge map always has shape 50x50, with constant score 1 at location (3,4). -/
def demoOracle : MatchOracle := ⟨100, fun _ => (50, 50), fun _ => 1, fun _ => (3, 4)⟩

/-- Sample template over `demoOracle` with shape 5x5. -/
def demoTemplate : TemplateEntry := ⟨demoOracle, (5, 5)⟩

/-- Sample oracle whose resized screen map is always empty, so every
scale fails the size check. -/
def emptyOracle : MatchOracle := ⟨100, fun _ => (0, 0), fun _ => 0, fun _ => (0, 0)⟩

/-! ### Claim theorems -/

/-- Claim C1: for every input and every cooldown state, if `best_target`
is absent or `best_conf < 0.70`, then `click_target` dispatches no click
and returns `False`, leaving the state unchanged. -/
theorem click_no_dispatch_below_threshold (bt : Option String) (conf : ℚ)
    (coords : Option Coords) (st : CooldownMap) (now : ℚ)
    (h : bt = none ∨ conf < MATCH_THRESHOLD) :
    click_target bt conf coords st now = some (false, none, st) := by
  cases bt with
  | none => rfl
  | some name =>
      rcases h with h | h
      · cases h
      · rw [click_target_some, if_pos (Or.inr h)]

theorem click_no_dispatch_below_threshold_witness :
    click_target none 0 none [] 0 = some (false, none, []) :=
  click_no_dispatch_below_threshold none 0 none [] 0 (Or.inl rfl)

/-- Claim C10: whenever `click_target` returns `False`, the cooldown
state is exactly the state passed in: no entry is added, removed, or
modified. -/
theorem click_false_frame (bt : Option String) (conf : ℚ) (coords : Option Coords)
    (st : CooldownMap) (now : ℚ) (p : Option (ℤ × ℤ)) (st1 : CooldownMap)
    (h : click_target bt conf coords st now = some (false, p, st1)) :
    st1 = st :=
  (click_target_false_state bt conf coords st now p st1 h).1

theorem click_false_frame_witness :
    ([("OK", (10 : ℚ))] : CooldownMap) = [("OK", (10 : ℚ))] :=
  click_false_frame (some "OK") 1 (some ((0, 0), 1, (10, 10))) [("OK", (10 : ℚ))] 20
    none [("OK", (10 : ℚ))]
    (by norm_num [click_target, MATCH_THRESHOLD, CLICK_COOLDOWN_SEC, getTs_cons])

/-- Claim C8: an undecodable screenshot (`cv2.imread` returning `None`)
makes `find_and_click` return `False` with no click attempted and the
cooldown state unchanged. -/
theorem find_and_click_unreadable_screenshot (st : CooldownMap) (now : ℚ) :
    find_and_click none st now = some (false, none, st) := rfl

/-- Claim C7: `find_best_target` is deterministic: two calls on equal
screen/template inputs return identical triples. -/
theorem fbt_deterministic (ts1 ts2 : List (String × TemplateEntry)) (h : ts1 = ts2) :
    find_best_target ts1 = find_best_target ts2 := by rw [h]

theorem fbt_deterministic_witness :
    find_best_target [("OK", demoTemplate)] = find_best_target [("OK", demoTemplate)] :=
  fbt_deterministic [("OK", demoTemplate)] [("OK", demoTemplate)] rfl

/-- Claim C3: whenever `click_target` dispatches a click for a match
`(maxLoc, r, (tH, tW))`, the clicked point is the centre of the matched
bounding box scaled back to original-screen coordinates (corners scaled
by `r`, floored to integer pixels, midpoint by integer floor division),
and the cooldown entry of the target is set to `now`. -/
theorem click_point_is_scaled_center (name : String) (conf : ℚ) (maxLoc : ℕ × ℕ)
    (r : ℚ) (sh : ℕ × ℕ) (st : CooldownMap) (now : ℚ) (p : Option (ℤ × ℤ))
    (st1 : CooldownMap) (hr : 0 ≤ r)
    (h : click_target (some name) conf (some (maxLoc, r, sh)) st now
      = some (true, p, st1)) :
    p = some (spec_click_point maxLoc r sh.1 sh.2) ∧ st1 = setTs st name now ∧
      getTs st1 name = now := by
  obtain ⟨nm, ml, r2, sh2, hbt, -, -, -, hco, hp, hst⟩ :=
    click_target_true_spec _ _ _ _ _ _ _ h
  have hnm : name = nm := Option.some.inj hbt
  subst hnm
  obtain ⟨rfl, rfl, rfl⟩ : maxLoc = ml ∧ r = r2 ∧ sh = sh2 := by
    simpa [Prod.mk.injEq] using Option.some.inj hco
  refine ⟨?_, hst, by rw [hst, getTs_setTs_self]⟩
  rw [hp, clickPoint_eq_spec maxLoc r sh.1 sh.2 hr]

theorem click_point_is_scaled_center_witness :
    some (clickPoint (0, 0) 1 10 10) = some (spec_click_point (0, 0) 1 10 10) ∧
      setTs _last_click_ts "OK" 20 = setTs _last_click_ts "OK" 20 ∧
      getTs (setTs _last_click_ts "OK" 20) "OK" = 20 :=
  click_point_is_scaled_center "OK" 1 (0, 0) 1 (10, 10) _last_click_ts 20
    (some (clickPoint (0, 0) 1 10 10)) (setTs _last_click_ts "OK" 20)
    (by norm_num)
    (click_target_success "OK" 1 (0, 0) 1 (10, 10) _last_click_ts 20 (by decide)
      (by norm_num [MATCH_THRESHOLD])
      (by rw [getTs_init]; norm_num [CLICK_COOLDOWN_SEC]))

/-- Claim C2: over any sequence of `click_target` calls, if a click is
dispatched for a target at time `t1` and the next click dispatched for the
same target happens at time `t2 > t1`, then `t2 - t1 >= 15` seconds. -/
theorem click_cooldown_interval (name : String) (st0 : CooldownMap)
    (e1 e2 : CallEvent) (es2 : List CallEvent)
    (h1 : ClicksFor name st0 e1)
    (hmid : ∀ pre e suf, es2 = pre ++ e :: suf →
      ¬ ClicksFor name (runState (step st0 e1).2 pre) e)
    (h2 : ClicksFor name (runState (step st0 e1).2 es2) e2)
    (hord : e1.now < e2.now) :
    CLICK_COOLDOWN_SEC ≤ e2.now - e1.now := by
  have hts : getTs (runState (step st0 e1).2 es2) name = e1.now := by
    rw [runState_no_click_preserves name es2 (step st0 e1).2 hmid,
      step_snd_click name st0 e1 h1]
  obtain ⟨htgt, p, st1, hct⟩ := h2
  obtain ⟨nm, ml, r, sh, hbt, -, -, hcool, -, -, -⟩ :=
    click_target_true_spec _ _ _ _ _ _ _ hct
  have hnm : nm = name := by
    rw [htgt] at hbt
    exact (Option.some.inj hbt).symm
  rw [hnm, hts] at hcool
  exact hcool

theorem click_cooldown_interval_witness : CLICK_COOLDOWN_SEC ≤ (40 : ℚ) - 20 := by
  have hc1 : click_target (some "OK") 1 (some ((1, 2), 1, (10, 10))) _last_click_ts 20
      = some (true, some (clickPoint (1, 2) 1 10 10), setTs _last_click_ts "OK" 20) :=
    click_target_success "OK" 1 (1, 2) 1 (10, 10) _last_click_ts 20 (by decide)
      (by norm_num [MATCH_THRESHOLD]) (by rw [getTs_init]; norm_num [CLICK_COOLDOWN_SEC])
  have hstep : (step _last_click_ts ⟨some "OK", 1, some ((1, 2), 1, (10, 10)), 20⟩).2
      = setTs _last_click_ts "OK" 20 := by
    simp [step, hc1]
  refine click_cooldown_interval "OK" _last_click_ts
    ⟨some "OK", 1, some ((1, 2), 1, (10, 10)), 20⟩
    ⟨some "OK", 1, some ((1, 2), 1, (10, 10)), 40⟩ []
    ⟨rfl, some (clickPoint (1, 2) 1 10 10), setTs _last_click_ts "OK" 20, hc1⟩
    (fun pre e suf habs => absurd habs (by simp)) ?_ (by norm_num)
  show ClicksFor "OK" (step _last_click_ts ⟨some "OK", 1, some ((1, 2), 1, (10, 10)), 20⟩).2 _
  rw [hstep]
  exact ⟨rfl, some (clickPoint (1, 2) 1 10 10), setTs (setTs _last_click_ts "OK" 20) "OK" 40,
    click_target_success "OK" 1 (1, 2) 1 (10, 10) (setTs _last_click_ts "OK" 20) 40 (by decide)
      (by norm_num [MATCH_THRESHOLD])
      (by rw [getTs_setTs_self]; norm_num [CLICK_COOLDOWN_SEC])⟩

/-- Claim C4: a scale whose resized screen map is smaller than the
template in either dimension contributes no candidate, and
`multi_scale_match` returns `None` exactly when no swept scale produced a
large-enough resized map. -/
theorem msm_skips_small_scales_none_iff (o : MatchOracle) (t : ℕ × ℕ) :
    (multi_scale_match o t = none ↔ ∀ s ∈ scales, ¬ ScaleFits o t s) ∧
    (∀ res : Cand, multi_scale_match o t = some res →
      ∃ s ∈ scales, ScaleFits o t s ∧ res = candidate o s) := by
  constructor
  · simpa [multi_scale_match] using msm_foldl_none_iff o t scales
  · intro res h
    rcases msm_foldl_attain o t scales none res (by simpa [multi_scale_match] using h) with
      hacc | hex
    · cases hacc
    · exact hex

theorem msm_skips_small_scales_none_iff_witness :
    multi_scale_match emptyOracle (1, 1) = none :=
  (msm_skips_small_scales_none_iff emptyOracle (1, 1)).1.mpr
    (fun s _ => by simp [ScaleFits, emptyOracle])

/-- Claim C5: `multi_scale_match` sweeps exactly the 11 evenly spaced
scale factors from 0.8 to 1.2 inclusive, and any returned triple carries
the globally highest score over the fitting scales, its location, and the
ratio of the original screen width to the resized width at the winning
scale. -/
theorem msm_eleven_scales_best_score (o : MatchOracle) (t : ℕ × ℕ) :
    scales.length = 11 ∧
    scales = [4/5, 21/25, 22/25, 23/25, 24/25, 1, 26/25, 27/25, 28/25, 29/25, 6/5] ∧
    (∀ (v : ℚ) (l : ℕ × ℕ) (rat : ℚ), multi_scale_match o t = some (v, l, rat) →
      ∃ s ∈ scales, ScaleFits o t s ∧ v = o.score s ∧ l = o.loc s ∧
        rat = (o.screenW : ℚ) / (((o.resized s).2 : ℚ)) ∧
        ∀ s2 ∈ scales, ScaleFits o t s2 → o.score s2 ≤ v) := by
  have hlist : scales = [4/5, 21/25, 22/25, 23/25, 24/25, 1, 26/25, 27/25, 28/25, 29/25, 6/5] := by
    norm_num [scales, List.range_succ]
  refine ⟨by rw [hlist]; rfl, hlist, ?_⟩
  intro v l rat h
  have h0 : scales.foldl (msmStep o t) none = some (v, l, rat) := h
  rcases msm_foldl_attain o t scales none _ h0 with hacc | ⟨s, hs, hfit, hres⟩
  · cases hacc
  · obtain ⟨hub, -⟩ := msm_foldl_ub o t scales none _ h0
    obtain ⟨hv, hl, hrat⟩ : v = o.score s ∧ l = o.loc s ∧
        rat = (o.screenW : ℚ) / (((o.resized s).2 : ℚ)) := by
      simpa [candidate, Prod.mk.injEq] using hres
    exact ⟨s, hs, hfit, hv, hl, hrat, fun s2 hs2 hfit2 => hub s2 hs2 hfit2⟩

theorem msm_eleven_scales_best_score_witness :
    ∃ s ∈ scales, ScaleFits demoOracle (5, 5) s ∧ (1 : ℚ) = demoOracle.score s ∧
      ((3, 4) : ℕ × ℕ) = demoOracle.loc s ∧
      (2 : ℚ) = (demoOracle.screenW : ℚ) / (((demoOracle.resized s).2 : ℚ)) ∧
      ∀ s2 ∈ scales, ScaleFits demoOracle (5, 5) s2 → demoOracle.score s2 ≤ 1 :=
  (msm_eleven_scales_best_score demoOracle (5, 5)).2.2 1 (3, 4) 2
    (by norm_num [multi_scale_match, scales, List.range_succ, msmStep, candidate, demoOracle])

/-- Claim C6: `find_best_target` compares with strict greater-than from
an initial best confidence of 0.0: a target whose best correlation is
zero or negative is never selected, and of two templates with equal
(positive) top scores the first-registered target wins. -/
theorem fbt_strict_gt_first_wins (ts : List (String × TemplateEntry))
    (n1 n2 : String) (t1 t2 : TemplateEntry) (v : ℚ) (l1 l2 : ℕ × ℕ) (r1 r2 : ℚ) :
    ((∀ nt ∈ ts, ∀ res : Cand,
        multi_scale_match nt.2.oracle nt.2.shape = some res → res.1 ≤ 0) →
      find_best_target ts = (none, 0, none)) ∧
    (multi_scale_match t1.oracle t1.shape = some (v, l1, r1) →
      multi_scale_match t2.oracle t2.shape = some (v, l2, r2) → 0 < v →
      (find_best_target [(n1, t1), (n2, t2)]).1 = some n1) := by
  constructor
  · intro h
    exact fbt_foldl_const ts (none, 0, none) h
  · intro h1 h2 hv
    simp [find_best_target, fbtStep, h1, h2, hv, lt_irrefl]

theorem fbt_strict_gt_first_wins_witness :
    (find_best_target [("A", demoTemplate), ("B", demoTemplate)]).1 = some "A" := by
  have hm : multi_scale_match demoTemplate.oracle demoTemplate.shape = some (1, (3, 4), 2) := by
    norm_num [multi_scale_match, scales, List.range_succ, msmStep, candidate,
      demoTemplate, demoOracle]
  exact (fbt_strict_gt_first_wins [] "A" "B" demoTemplate demoTemplate 1
    (3, 4) (3, 4) 2 2).2 hm hm (by norm_num)

/-- Claim C9, counterexample to "for any value of now": the cooldown map
is initialized to timestamp 0.0 rather than a genuine "never clicked"
marker, so a first qualifying call (known target, confidence 1 above the
0.70 threshold, coordinates present) at `now = 5` is blocked by the
cooldown check and dispatches no click. -/
theorem first_click_blocked_near_epoch :
    click_target (some "OK") 1 (some ((0, 0), 1, (10, 10))) _last_click_ts 5
      = some (false, none, _last_click_ts) := by
  rw [click_target_some,
    if_neg (not_or.mpr ⟨by decide, by norm_num [MATCH_THRESHOLD]⟩),
    if_pos (by rw [getTs_init]; norm_num [CLICK_COOLDOWN_SEC])]

/-- Claim C9 as amended: from the initial cooldown state (all stamps
0.0), the first call with a qualifying match for a known target dispatches
a click for every `now` at least 15 (the cooldown span past the zero
initialization); only calls with `now` within 15 seconds of the time
origin are blocked. -/
theorem first_click_dispatches_after_epoch_cooldown (name : String) (conf : ℚ)
    (maxLoc : ℕ × ℕ) (r : ℚ) (sh : ℕ × ℕ) (now : ℚ)
    (hname : name ∈ TARGET_NAMES) (hconf : MATCH_THRESHOLD ≤ conf)
    (hnow : CLICK_COOLDOWN_SEC ≤ now) :
    click_target (some name) conf (some (maxLoc, r, sh)) _last_click_ts now
      = some (true, some (clickPoint maxLoc r sh.1 sh.2), setTs _last_click_ts name now) := by
  have hne : name ≠ "" := by
    simp only [TARGET_NAMES, List.mem_cons, List.mem_singleton, List.not_mem_nil,
      or_false] at hname
    rcases hname with rfl | rfl <;> decide
  exact click_target_success name conf maxLoc r sh _last_click_ts now hne hconf
    (by rw [getTs_init, sub_zero]; exact hnow)

theorem first_click_dispatches_after_epoch_cooldown_witness :
    click_target (some "I AM AVAILABLE") 1 (some ((30, 15), 1, (20, 40))) _last_click_ts 100
      = some (true, some (clickPoint (30, 15) 1 20 40),
          setTs _last_click_ts "I AM AVAILABLE" 100) :=
  first_click_dispatches_after_epoch_cooldown "I AM AVAILABLE" 1 (30, 15) 1 (20, 40) 100
    (by decide) (by norm_num [MATCH_THRESHOLD]) (by norm_num [CLICK_COOLDOWN_SEC])

end Monitor
